import Mathlib

/-!
# docs-site/assets/js/main.js

A shallow embedding of the page script of the documentation site and of the
part of the browser it talks to.

The script does three things when it runs:

* lines 1-5: if `toggle` is set, register a click listener on it that calls
  `menubar.classList.toggle('active')`;
* lines 7-19: for every element matched by `a[href^="#"]`, register a click
  listener that calls `e.preventDefault()`, looks the `href` up with
  `document.querySelector` and, when something is found, calls
  `scrollIntoView({behavior: 'smooth', block: 'start'})` on it;
* lines 21-28: for every element matched by `.sidebar-nav a` whose `href`
  is `=== window.location.pathname`, set `style.fontWeight` and `style.color`.

The browser side is modelled as follows.

* The document is the list of its elements in tree order; an element is named
  by its position in that list and carries the position of its parent.
* `toggle` and `menubar` are used by the script but declared outside the
  lines of `main.js` at hand; they are fields of the page, each an element
  reference or `null`.
* Selector strings computed at run time (the `href` handed to `querySelector`)
  go through a `SelectorEngine`, which every theorem takes as a parameter.
  The two selector strings that are constants of the script are translated to
  their meaning directly.
* A click runs the listeners registered on the clicked element, in
  registration order, and then, the listeners being registered for the bubbling
  phase and nothing stopping the propagation, those of its parent, of the
  parent of that, and so on up to the root, each with `this` bound to the
  element it is registered on.  An exception thrown by a listener ends that
  listener and is recorded; the effects it had before are kept and the
  listeners after it still run.
-/

namespace MMDR

/-! ## Browser model -/

/-- Exceptions the script can meet. -/
inductive JSError where
  /-- A member access on `null`. -/
  | typeError
  /-- A string that is not a selector was handed to `querySelector`. -/
  | syntaxError
  deriving DecidableEq, Repr

/-- An element of the document. -/
structure Element where
  /-- The local name, lower case for HTML elements. -/
  tag : String
  /-- Position of the parent element in the document list, `none` at the root. -/
  parent : Option Nat
  /-- Content attributes (`getAttribute`). -/
  attrs : List (String × String)
  /-- The token set behind `classList`. -/
  classList : List String
  /-- The declarations behind `style`, keyed by property name as the script writes it. -/
  style : List (String × String)
  deriving DecidableEq, Repr

/-- The call `element.getAttribute(name)`: the value, or `null`. -/
def getAttribute (e : Element) (name : String) : Option String :=
  List.lookup name e.attrs

/-- The call `classList.toggle(token)`: remove the token when present, add it
at the end otherwise. -/
def classListToggle (cl : List String) (token : String) : List String :=
  if token ∈ cl then cl.filter (fun c => decide (c ≠ token)) else cl ++ [token]

/-- The assignment `style.prop = value`: replace the declaration of `prop`
when there is one, append one otherwise. -/
def setProperty (st : List (String × String)) (prop value : String) :
    List (String × String) :=
  if st.any (fun d => decide (d.1 = prop)) then
    st.map (fun d => if d.1 = prop then (prop, value) else d)
  else st ++ [(prop, value)]

/-- Reading `style.prop`. -/
def getProperty (st : List (String × String)) (prop : String) : Option String :=
  List.lookup prop st

/-- Apply `f` to the element at position `i`; other positions are untouched and
a position outside the list changes nothing. -/
def modifyAt {α : Type} (f : α → α) : List α → Nat → List α
  | [], _ => []
  | x :: xs, 0 => f x :: xs
  | x :: xs, n + 1 => x :: modifyAt f xs n

/-- The browser's selector engine for selector strings computed at run time:
`parse` is `none` on a string that is not a selector, and `selects s doc i`
says whether the element at position `i` of `doc` is matched by `s`. -/
structure SelectorEngine where
  /-- Parsed selectors. -/
  Sel : Type
  /-- Parsing; `none` is a syntax error. -/
  parse : String → Option Sel
  /-- Matching of one element of a document. -/
  selects : Sel → List Element → Nat → Bool

/-- The call `document.querySelector(s)`: a `SyntaxError` when `s` is not a
selector, otherwise the first element in tree order that is matched, or
`null`. -/
def querySelector (E : SelectorEngine) (doc : List Element) (s : String) :
    Except JSError (Option Nat) :=
  match E.parse s with
  | none => .error .syntaxError
  | some sel => .ok ((List.range doc.length).find? (fun i => E.selects sel doc i))

/-- The call `document.querySelectorAll` for a selector whose meaning is the
predicate `sel`: the matched elements in tree order. -/
def querySelectorAll (doc : List Element) (sel : List Element → Nat → Bool) :
    List Nat :=
  (List.range doc.length).filter (fun i => sel doc i)

/-- Whether a string begins with the fragment marker. -/
def beginsWithHash (s : String) : Bool :=
  match s.data with
  | c :: _ => c == '#'
  | [] => false

/-- The selector `a[href^="#"]`: an `a` element that has an `href` attribute
beginning with `#`. -/
def anchorSelector (doc : List Element) (i : Nat) : Bool :=
  match doc[i]? with
  | none => false
  | some e =>
    e.tag == "a" &&
      (match getAttribute e "href" with
       | some h => beginsWithHash h
       | none => false)

/-- Whether the element at `i?`, or one of its ancestors, has class `cls`;
`fuel` bounds the number of parent steps. -/
def selfOrAncestorHasClass (doc : List Element) (cls : String) :
    Nat → Option Nat → Bool
  | 0, _ => false
  | _ + 1, none => false
  | fuel + 1, some i =>
    match doc[i]? with
    | none => false
    | some e => e.classList.contains cls || selfOrAncestorHasClass doc cls fuel e.parent

/-- The selector `.sidebar-nav a`: an `a` element below an element of class
`sidebar-nav`.  A tree of `doc.length` elements has no longer parent chain. -/
def sidebarSelector (doc : List Element) (i : Nat) : Bool :=
  match doc[i]? with
  | none => false
  | some e => e.tag == "a" && selfOrAncestorHasClass doc "sidebar-nav" doc.length e.parent

/-- The two functions the script registers as click listeners. -/
inductive Listener where
  /-- The function of lines 2-4. -/
  | menuToggle
  /-- The function of lines 9-18. -/
  | smoothScroll
  deriving DecidableEq, Repr

/-- The page the script runs in. -/
structure Page where
  /-- The elements of the document in tree order. -/
  doc : List Element
  /-- The value of `window.location.pathname`. -/
  pathname : String
  /-- The variable `toggle`: an element or `null`. -/
  toggle : Option Nat
  /-- The variable `menubar`: an element or `null`. -/
  menubar : Option Nat
  /-- The click listeners registered so far, with the element each is on. -/
  listeners : List (Nat × Listener)
  deriving DecidableEq, Repr

/-- A page on which no script has run yet. -/
def Page.load (doc : List Element) (pathname : String) (toggle menubar : Option Nat) :
    Page :=
  { doc := doc, pathname := pathname, toggle := toggle, menubar := menubar, listeners := [] }

/-- The call `target.addEventListener('click', l)`; a `TypeError` when
`target` is `null`. -/
def addEventListener (p : Page) (target : Option Nat) (l : Listener) :
    Except JSError Page :=
  match target with
  | none => .error .typeError
  | some t => .ok { p with listeners := p.listeners ++ [(t, l)] }

/-- One call of `scrollIntoView`: the element it is made on and its options. -/
structure ScrollCall where
  /-- The element scrolled. -/
  target : Nat
  /-- The `behavior` option. -/
  behavior : String
  /-- The `block` option. -/
  block : String
  deriving DecidableEq, Repr

/-- What a click has done so far. -/
structure ClickState where
  /-- The page. -/
  page : Page
  /-- Whether `preventDefault` was called on the event. -/
  defaultPrevented : Bool
  /-- The `scrollIntoView` calls made, oldest first. -/
  scrolls : List ScrollCall
  /-- The exceptions thrown by listeners, oldest first. -/
  errors : List JSError
  deriving DecidableEq, Repr

/-! ## The script -/

/-- Lines 2-4, the listener on the toggle:
`menubar.classList.toggle('active')`. -/
def menuToggleHandler (s : ClickState) : ClickState × Option JSError :=
  match s.page.menubar with
  | none => (s, some .typeError)
  | some m =>
    ({ s with
        page := { s.page with
          doc := modifyAt
            (fun e => { e with classList := classListToggle e.classList "active" })
            s.page.doc m } },
     none)

/-- Lines 9-18, the listener on a fragment link `this`.  A `null` attribute
value reaches `querySelector` as the string `"null"`. -/
def anchorHandler (E : SelectorEngine) (this : Nat) (s : ClickState) :
    ClickState × Option JSError :=
  let s1 := { s with defaultPrevented := true }
  let href : String :=
    match s1.page.doc[this]? with
    | some e => (getAttribute e "href").getD "null"
    | none => "null"
  match querySelector E s1.page.doc href with
  | .error err => (s1, some err)
  | .ok none => (s1, none)
  | .ok (some target) =>
    ({ s1 with scrolls := s1.scrolls ++ [⟨target, "smooth", "start"⟩] }, none)

/-- Lines 24-27, the body of the sidebar loop for one link. -/
def highlightLink (currentPath : String) (link : Element) : Element :=
  if getAttribute link "href" = some currentPath then
    { link with
      style := setProperty (setProperty link.style "fontWeight" "600")
        "color" "var(--primary-color)" }
  else link

/-- Lines 22-28, the sidebar highlight pass. -/
def highlightPass (p : Page) : Except JSError Page :=
  let currentPath := p.pathname
  (querySelectorAll p.doc sidebarSelector).foldlM
    (fun (q : Page) link =>
      Except.ok { q with doc := modifyAt (highlightLink currentPath) q.doc link })
    p

/-- Lines 8-19, the registration of the smooth-scroll listeners. -/
def registerAnchors (p : Page) : Except JSError Page :=
  (querySelectorAll p.doc anchorSelector).foldlM
    (fun (q : Page) anchor => addEventListener q (some anchor) .smoothScroll)
    p

/-- Lines 1-5, the guarded registration of the menu listener. -/
def registerToggle (p : Page) : Except JSError Page :=
  if p.toggle.isSome then addEventListener p p.toggle .menuToggle else .ok p

/-- The whole script, top to bottom. -/
def runScript (p : Page) : Except JSError Page := do
  let p1 ← registerToggle p
  let p2 ← registerAnchors p1
  highlightPass p2

/-! ## Clicks -/

/-- The listeners registered on `target`, in registration order. -/
def listenersOn (p : Page) (target : Nat) : List Listener :=
  (p.listeners.filter (fun r => r.1 == target)).map (fun r => r.2)

/-- Run one listener with `this` bound to the element it is registered on. -/
def runListener (E : SelectorEngine) (this : Nat) :
    Listener → ClickState → ClickState × Option JSError
  | .menuToggle => menuToggleHandler
  | .smoothScroll => anchorHandler E this

/-- The state after a listener has returned or thrown: an exception is added
to the record. -/
def recordOutcome : ClickState × Option JSError → ClickState
  | (s, none) => s
  | (s, some err) => { s with errors := s.errors ++ [err] }

/-- Run listeners one after the other; an exception is recorded and the next
listener still runs. -/
def dispatch (E : SelectorEngine) (this : Nat) (ls : List Listener) (s : ClickState) :
    ClickState :=
  ls.foldl (fun s l => recordOutcome (runListener E this l s)) s

/-- The first step of a click on `target`: the listeners on the clicked element
itself, run on a fresh event. -/
def atTarget (E : SelectorEngine) (p : Page) (target : Nat) : ClickState :=
  dispatch E target (listenersOn p target)
    { page := p, defaultPrevented := false, scrolls := [], errors := [] }

/-- The parent of the element at `i`.  In tree order a parent precedes its
children, so a position that does not precede `i` is no parent. -/
def parentOf (doc : List Element) (i : Nat) : Option Nat :=
  match doc[i]? with
  | none => none
  | some e =>
    match e.parent with
    | none => none
    | some q => if q < i then some q else none

/-- The ancestors of the element at `i`, nearest first; `fuel` bounds the
number of parent steps, and `i` steps reach the root from position `i`. -/
def ancestors (doc : List Element) : Nat → Nat → List Nat
  | 0, _ => []
  | fuel + 1, i =>
    match parentOf doc i with
    | none => []
    | some q => q :: ancestors doc fuel q

/-- The event reaches the element `b`: the listeners on `b` run with `this`
bound to `b`. -/
def reach (E : SelectorEngine) (s : ClickState) (b : Nat) : ClickState :=
  dispatch E b (listenersOn s.page b) s

/-- A click on the element `target`: the listeners on `target`, then those on
each of its ancestors, nearest first. -/
def click (E : SelectorEngine) (p : Page) (target : Nat) : ClickState :=
  (ancestors p.doc target target).foldl (reach E) (atTarget E p target)

/-- The page after `n` clicks on `target`. -/
def clicks (E : SelectorEngine) (p : Page) (target : Nat) : Nat → Page
  | 0 => p
  | n + 1 => (click E (clicks E p target n) target).page

/-- The classes of the element at position `i` (none when there is no such element). -/
def classesAt (p : Page) (i : Nat) : List String :=
  match p.doc[i]? with
  | some e => e.classList
  | none => []

/-! ## A selector engine for plain ID selectors -/

/-- Characters of a plain ASCII identifier. -/
def isNameChar (c : Char) : Bool :=
  c.isAlphanum || c == '-' || c == '_'

/-- Whether the characters form a plain identifier: a letter or an underscore,
followed by name characters. -/
def isIdent : List Char → Bool
  | [] => false
  | c :: cs => (c.isAlpha || c == '_') && cs.all isNameChar

/-- An engine that knows plain ID selectors only: `#` followed by an ASCII
identifier selects the elements whose `id` attribute is that identifier, and
every other string is refused.  On the strings it accepts, and on the bare
marker `#`, it behaves as a browser does. -/
@[reducible]
def idEngine : SelectorEngine where
  Sel := String
  parse := fun s =>
    match s.data with
    | '#' :: cs => if isIdent cs then some (String.mk cs) else none
    | _ => none
  selects := fun ident doc i =>
    match doc[i]? with
    | some e => getAttribute e "id" == some ident
    | none => false

/-! ## Closed forms used in the proofs -/

/-- The document after the sidebar loop, as a fold without the error monad. -/
def highlightDoc (currentPath : String) (doc : List Element) : List Element :=
  (querySelectorAll doc sidebarSelector).foldl
    (fun d i => modifyAt (highlightLink currentPath) d i) doc

/-- The registrations made by lines 1-5. -/
def toggleListeners : Option Nat → List (Nat × Listener)
  | some t => [(t, .menuToggle)]
  | none => []

/-- The registrations made by lines 8-19. -/
def anchorListeners (doc : List Element) : List (Nat × Listener) :=
  (querySelectorAll doc anchorSelector).map (fun a => (a, Listener.smoothScroll))

/-- The page the script leaves. -/
def scriptResult (p : Page) : Page :=
  { doc := highlightDoc p.pathname p.doc
    pathname := p.pathname
    toggle := p.toggle
    menubar := p.menubar
    listeners := (p.listeners ++ toggleListeners p.toggle) ++ anchorListeners p.doc }

/-- The effect of the menu listener on the page: the `active` token of the
menu bar is toggled, and nothing happens when `menubar` is `null`. -/
def menuTogglePage (p : Page) : Page :=
  (menuToggleHandler
    { page := p, defaultPrevented := false, scrolls := [], errors := [] }).1.page

/-- The declarations `st` hold `prop`, and hold it with value `value` only. -/
def Declares (st : List (String × String)) (prop value : String) : Prop :=
  (∃ d ∈ st, d.1 = prop) ∧ ∀ d ∈ st, d.1 = prop → d = (prop, value)

/-- An engine that knows one shape of selector only: an ID selector followed
by a class selector, `#` identifier `.` identifier, which selects the elements
with that `id` attribute and that class; every other string is refused.  On
the strings it accepts it behaves as a browser does. -/
@[reducible]
def idClassEngine : SelectorEngine where
  Sel := String × String
  parse := fun s =>
    match s.data with
    | '#' :: cs =>
      match cs.span (fun c => c != '.') with
      | (ident, '.' :: cls) =>
        if isIdent ident && isIdent cls then some (String.mk ident, String.mk cls) else none
      | _ => none
    | _ => none
  selects := fun sel doc i =>
    match doc[i]? with
    | some e => getAttribute e "id" == some sel.1 && e.classList.contains sel.2
    | none => false

/-! ## Sample pages -/

/-- A page with a toggle button (0), a menu bar (1), a sidebar (2) holding two
links (3, 4), a fragment link (5) to a heading (6), a bare `#` link (7), a
dangling fragment link (8) and an external link (9). -/
def demoDoc : List Element :=
  [ { tag := "button", parent := none, attrs := [("id", "toggle")], classList := [], style := [] },
    { tag := "nav", parent := none, attrs := [("id", "menubar")], classList := ["menubar"], style := [] },
    { tag := "div", parent := none, attrs := [], classList := ["sidebar-nav"], style := [] },
    { tag := "a", parent := some 2, attrs := [("href", "/docs/intro.html")], classList := [], style := [] },
    { tag := "a", parent := some 2, attrs := [("href", "/docs/other.html")], classList := [],
      style := [("color", "red")] },
    { tag := "a", parent := none, attrs := [("href", "#section-2")], classList := [], style := [] },
    { tag := "h2", parent := none, attrs := [("id", "section-2")], classList := [], style := [] },
    { tag := "a", parent := none, attrs := [("href", "#")], classList := [], style := [] },
    { tag := "a", parent := none, attrs := [("href", "#missing")], classList := [], style := [] },
    { tag := "a", parent := none, attrs := [("href", "https://example.org/")], classList := [],
      style := [] } ]

/-- The sample document loaded at `/docs/intro.html`, with both variables set. -/
def demoPage : Page :=
  Page.load demoDoc "/docs/intro.html" (some 0) (some 1)

/-- A page of two elements whose menu bar (1) starts with the `active` class;
the toggle is the button (0). -/
def openMenuPage : Page :=
  Page.load
    [ { tag := "button", parent := none, attrs := [("id", "toggle")], classList := [], style := [] },
      { tag := "nav", parent := none, attrs := [("id", "menubar")],
        classList := ["menubar", "active"], style := [] } ]
    "/index.html" (some 0) (some 1)

/-- The sample document with a toggle and without a menu bar: `menubar` is `null`. -/
def noMenubarPage : Page :=
  Page.load demoDoc "/docs/intro.html" (some 0) none

/-- A document with two headings (0, 1) and a fragment link (2) that holds
three links: one to the second heading (3), one to a fragment that is nowhere
(4) and one to another page (5). -/
def nestedDoc : List Element :=
  [ { tag := "h2", parent := none, attrs := [("id", "sec")], classList := [], style := [] },
    { tag := "h2", parent := none, attrs := [("id", "top")], classList := [], style := [] },
    { tag := "a", parent := none, attrs := [("href", "#sec")], classList := [], style := [] },
    { tag := "a", parent := some 2, attrs := [("href", "#top")], classList := [], style := [] },
    { tag := "a", parent := some 2, attrs := [("href", "#missing")], classList := [], style := [] },
    { tag := "a", parent := some 2, attrs := [("href", "/other.html")], classList := [],
      style := [] } ]

/-- The nested document, with no toggle and no menu bar. -/
def nestedPage : Page :=
  Page.load nestedDoc "/index.html" none none

/-- A page whose toggle (0) is itself a fragment link, to the menu bar (1) in
its open state; the menu bar starts open. -/
def toggleLinkOpenPage : Page :=
  Page.load
    [ { tag := "a", parent := none, attrs := [("href", "#menubar.active")], classList := [],
        style := [] },
      { tag := "nav", parent := none, attrs := [("id", "menubar")],
        classList := ["menubar", "active"], style := [] } ]
    "/index.html" (some 0) (some 1)

/-- The same page with the menu bar starting closed. -/
def toggleLinkClosedPage : Page :=
  Page.load
    [ { tag := "a", parent := none, attrs := [("href", "#menubar.active")], classList := [],
        style := [] },
      { tag := "nav", parent := none, attrs := [("id", "menubar")],
        classList := ["menubar"], style := [] } ]
    "/index.html" (some 0) (some 1)

/-! ## Lists -/

theorem modifyAt_length {α : Type} (f : α → α) (l : List α) (i : Nat) :
    (modifyAt f l i).length = l.length := by
  induction l generalizing i with
  | nil => rfl
  | cons x xs ih =>
    cases i with
    | zero => rfl
    | succ n => simp [modifyAt, ih]

theorem getElem?_modifyAt {α : Type} (f : α → α) (l : List α) (i j : Nat) :
    (modifyAt f l i)[j]? = if j = i then (l[j]?).map f else l[j]? := by
  induction l generalizing i j with
  | nil => simp [modifyAt]
  | cons x xs ih =>
    cases i with
    | zero =>
      cases j with
      | zero => simp [modifyAt]
      | succ m => simp [modifyAt]
    | succ n =>
      cases j with
      | zero => simp [modifyAt]
      | succ m => simp [modifyAt, ih]

/-- Modifying the listed positions one after the other with an idempotent `f`
applies `f` at exactly the listed positions. -/
theorem getElem?_foldl_modifyAt {α : Type} (f : α → α) (hf : ∀ x, f (f x) = f x)
    (idxs : List Nat) (l : List α) (j : Nat) :
    (idxs.foldl (fun d i => modifyAt f d i) l)[j]? =
      if j ∈ idxs then (l[j]?).map f else l[j]? := by
  induction idxs generalizing l with
  | nil => simp
  | cons i rest ih =>
    rw [List.foldl_cons, ih, getElem?_modifyAt]
    by_cases hji : j = i
    · subst hji
      by_cases hr : j ∈ rest
      · cases hl : l[j]? <;> simp [hr, hf]
      · simp [hr]
    · by_cases hr : j ∈ rest <;> simp [hji, hr]

theorem length_foldl_modifyAt {α : Type} (f : α → α) (idxs : List Nat) (l : List α) :
    (idxs.foldl (fun d i => modifyAt f d i) l).length = l.length := by
  induction idxs generalizing l with
  | nil => rfl
  | cons i rest ih => rw [List.foldl_cons, ih, modifyAt_length]

theorem mem_querySelectorAll (doc : List Element) (sel : List Element → Nat → Bool)
    (i : Nat) : i ∈ querySelectorAll doc sel ↔ i < doc.length ∧ sel doc i = true := by
  simp [querySelectorAll]

theorem nodup_querySelectorAll (doc : List Element) (sel : List Element → Nat → Bool) :
    (querySelectorAll doc sel).Nodup :=
  (List.nodup_range doc.length).filter _

/-! ## The script always runs to its end -/

theorem foldlM_modify_ok (f : Element → Element) (idxs : List Nat) (q : Page) :
    idxs.foldlM
        (fun (q : Page) link => (Except.ok { q with doc := modifyAt f q.doc link } : Except JSError Page))
        q =
      .ok { q with doc := idxs.foldl (fun d i => modifyAt f d i) q.doc } := by
  induction idxs generalizing q with
  | nil => rfl
  | cons i rest ih =>
    rw [List.foldlM_cons]
    show (rest.foldlM _ _) = _
    rw [ih]
    rfl

theorem highlightPass_eq (p : Page) :
    highlightPass p = .ok { p with doc := highlightDoc p.pathname p.doc } := by
  unfold highlightPass highlightDoc
  exact foldlM_modify_ok _ _ _

theorem foldlM_listen_ok (idxs : List Nat) (q : Page) :
    idxs.foldlM
        (fun (q : Page) anchor => addEventListener q (some anchor) .smoothScroll) q =
      .ok { q with
        listeners := q.listeners ++ idxs.map (fun a => (a, Listener.smoothScroll)) } := by
  induction idxs generalizing q with
  | nil => simp [List.foldlM]; rfl
  | cons i rest ih =>
    rw [List.foldlM_cons]
    show (rest.foldlM _ _) = _
    rw [ih]
    simp

theorem registerAnchors_eq (p : Page) :
    registerAnchors p = .ok { p with listeners := p.listeners ++ anchorListeners p.doc } := by
  unfold registerAnchors anchorListeners
  exact foldlM_listen_ok _ _

theorem registerToggle_eq (p : Page) :
    registerToggle p = .ok { p with listeners := p.listeners ++ toggleListeners p.toggle } := by
  obtain ⟨doc, path, tg, mb, ls⟩ := p
  cases tg <;> simp [registerToggle, addEventListener, toggleListeners]

theorem runScript_eq (p : Page) : runScript p = .ok (scriptResult p) := by
  unfold runScript
  rw [registerToggle_eq]
  show (registerAnchors _ >>= _) = _
  rw [registerAnchors_eq]
  show highlightPass _ = _
  rw [highlightPass_eq]
  rfl

/-! ## Inline style -/

theorem declares_setProperty (st : List (String × String)) (prop value : String) :
    Declares (setProperty st prop value) prop value := by
  unfold setProperty
  by_cases h : st.any (fun d => decide (d.1 = prop)) = true
  · rw [if_pos h]
    simp only [List.any_eq_true, decide_eq_true_eq] at h
    obtain ⟨d, hd, hdp⟩ := h
    refine ⟨⟨(prop, value), ?_, rfl⟩, ?_⟩
    · exact List.mem_map.mpr ⟨d, hd, by simp [hdp]⟩
    · intro d' hd' hk
      obtain ⟨d0, _, hd0⟩ := List.mem_map.mp hd'
      by_cases h0 : d0.1 = prop
      · rw [if_pos h0] at hd0
        exact hd0.symm
      · rw [if_neg h0] at hd0
        exact absurd (hd0 ▸ hk) h0
  · rw [if_neg h]
    simp only [List.any_eq_true, decide_eq_true_eq, not_exists, not_and] at h
    refine ⟨⟨(prop, value), by simp, rfl⟩, ?_⟩
    intro d' hd' hk
    rcases List.mem_append.mp hd' with h1 | h1
    · exact absurd hk (h d' h1)
    · simpa using h1

theorem setProperty_of_declares (st : List (String × String)) (prop value : String)
    (h : Declares st prop value) : setProperty st prop value = st := by
  obtain ⟨⟨d, hd, hdp⟩, hall⟩ := h
  unfold setProperty
  have hany : st.any (fun d => decide (d.1 = prop)) = true := by
    simp only [List.any_eq_true, decide_eq_true_eq]
    exact ⟨d, hd, hdp⟩
  rw [if_pos hany]
  conv_rhs => rw [← List.map_id st]
  apply List.map_congr_left
  intro d' hd'
  by_cases hk : d'.1 = prop
  · rw [if_pos hk]
    exact (hall d' hd' hk).symm
  · rw [if_neg hk]
    rfl

theorem declares_setProperty_of_ne (st : List (String × String))
    (prop value prop' value' : String) (hne : prop ≠ prop')
    (h : Declares st prop value) : Declares (setProperty st prop' value') prop value := by
  obtain ⟨⟨d, hd, hdp⟩, hall⟩ := h
  unfold setProperty
  split
  · refine ⟨⟨d, ?_, hdp⟩, ?_⟩
    · refine List.mem_map.mpr ⟨d, hd, ?_⟩
      rw [if_neg (by rw [hdp]; exact hne)]
    · intro d' hd' hk
      obtain ⟨d0, hd0, hd0e⟩ := List.mem_map.mp hd'
      by_cases h0 : d0.1 = prop'
      · rw [if_pos h0] at hd0e
        subst hd0e
        exact absurd hk.symm hne
      · rw [if_neg h0] at hd0e
        subst hd0e
        exact hall d0 hd0 hk
  · refine ⟨⟨d, List.mem_append_left _ hd, hdp⟩, ?_⟩
    intro d' hd' hk
    rcases List.mem_append.mp hd' with h1 | h1
    · exact hall d' h1 hk
    · have : d' = (prop', value') := by simpa using h1
      subst this
      exact absurd hk (Ne.symm hne)

theorem getProperty_of_declares (st : List (String × String)) (prop value : String)
    (h : Declares st prop value) : getProperty st prop = some value := by
  obtain ⟨⟨d, hd, hdp⟩, hall⟩ := h
  unfold getProperty
  induction st with
  | nil => simp at hd
  | cons x xs ih =>
    obtain ⟨k, v⟩ := x
    by_cases hk : k = prop
    · have := hall (k, v) (by simp) hk
      simp only [Prod.mk.injEq] at this
      simp [List.lookup, this.1, this.2]
    · have hd' : d ∈ xs := by
        rcases List.mem_cons.mp hd with h1 | h1
        · subst h1
          exact absurd hdp hk
        · exact h1
      have hne : (prop == k) = false := by
        simpa using fun h => hk h.symm
      simp only [List.lookup, hne]
      exact ih (fun d0 h0 => hall d0 (List.mem_cons_of_mem _ h0)) hd'

/-! ## The sidebar pass -/

theorem highlightLink_idem (path : String) (e : Element) :
    highlightLink path (highlightLink path e) = highlightLink path e := by
  by_cases h : getAttribute e "href" = some path
  · have hc := declares_setProperty (setProperty e.style "fontWeight" "600")
      "color" "var(--primary-color)"
    have hw := declares_setProperty_of_ne (setProperty e.style "fontWeight" "600")
      "fontWeight" "600" "color" "var(--primary-color)" (by decide)
      (declares_setProperty e.style "fontWeight" "600")
    have h1 : getAttribute (highlightLink path e) "href" = some path := by
      simp only [highlightLink, if_pos h]
      exact h
    conv_lhs => rw [highlightLink, if_pos h1]
    simp only [highlightLink, if_pos h, setProperty_of_declares _ _ _ hw,
      setProperty_of_declares _ _ _ hc]
  · have h1 : highlightLink path e = e := by
      simp only [highlightLink, if_neg h]
    rw [h1, h1]

theorem highlightLink_shape (path : String) (e : Element) :
    (highlightLink path e).tag = e.tag ∧ (highlightLink path e).parent = e.parent ∧
      (highlightLink path e).attrs = e.attrs ∧
      (highlightLink path e).classList = e.classList := by
  unfold highlightLink
  split <;> simp

theorem getElem?_highlightDoc (path : String) (doc : List Element) (j : Nat) :
    (highlightDoc path doc)[j]? =
      if sidebarSelector doc j = true then (doc[j]?).map (highlightLink path) else doc[j]? := by
  unfold highlightDoc
  rw [getElem?_foldl_modifyAt _ (highlightLink_idem path)]
  by_cases hs : sidebarSelector doc j = true
  · by_cases hj : j < doc.length
    · rw [if_pos ((mem_querySelectorAll _ _ _).mpr ⟨hj, hs⟩), if_pos hs]
    · have hnone : doc[j]? = none := List.getElem?_eq_none (Nat.le_of_not_lt hj)
      simp [hnone]
  · rw [if_neg (fun hm => hs ((mem_querySelectorAll _ _ _).mp hm).2), if_neg hs]

theorem length_highlightDoc (path : String) (doc : List Element) :
    (highlightDoc path doc).length = doc.length := by
  unfold highlightDoc
  exact length_foldl_modifyAt _ _ _

/-- What the selectors of the script look at in an element. -/
theorem getElem?_highlightDoc_cases (path : String) (doc : List Element) (j : Nat) :
    (doc[j]? = none ∧ (highlightDoc path doc)[j]? = none) ∨
      ∃ e e', doc[j]? = some e ∧ (highlightDoc path doc)[j]? = some e' ∧
        e'.tag = e.tag ∧ e'.parent = e.parent ∧ e'.attrs = e.attrs ∧
        e'.classList = e.classList := by
  rw [getElem?_highlightDoc]
  cases h : doc[j]? with
  | none => left; simp
  | some e =>
    right
    by_cases hs : sidebarSelector doc j = true
    · obtain ⟨h1, h2, h3, h4⟩ := highlightLink_shape path e
      exact ⟨e, highlightLink path e, rfl, by simp [hs], h1, h2, h3, h4⟩
    · exact ⟨e, e, rfl, by simp [hs], rfl, rfl, rfl, rfl⟩

theorem selfOrAncestorHasClass_highlightDoc (path : String) (doc : List Element)
    (cls : String) (fuel : Nat) (i? : Option Nat) :
    selfOrAncestorHasClass (highlightDoc path doc) cls fuel i? =
      selfOrAncestorHasClass doc cls fuel i? := by
  induction fuel generalizing i? with
  | zero => rfl
  | succ n ih =>
    cases i? with
    | none => rfl
    | some i =>
      rcases getElem?_highlightDoc_cases path doc i with ⟨h1, h2⟩ | ⟨e, e', h1, h2, _, hp, _, hc⟩
      · simp [selfOrAncestorHasClass, h1, h2]
      · simp [selfOrAncestorHasClass, h1, h2, hp, hc, ih]

theorem sidebarSelector_highlightDoc (path : String) (doc : List Element) (i : Nat) :
    sidebarSelector (highlightDoc path doc) i = sidebarSelector doc i := by
  unfold sidebarSelector
  rw [length_highlightDoc]
  rcases getElem?_highlightDoc_cases path doc i with ⟨h1, h2⟩ | ⟨e, e', h1, h2, ht, hp, _, _⟩
  · simp [h1, h2]
  · simp [h1, h2, ht, hp, selfOrAncestorHasClass_highlightDoc]

theorem anchorSelector_highlightDoc (path : String) (doc : List Element) (i : Nat) :
    anchorSelector (highlightDoc path doc) i = anchorSelector doc i := by
  unfold anchorSelector
  rcases getElem?_highlightDoc_cases path doc i with ⟨h1, h2⟩ | ⟨e, e', h1, h2, ht, _, ha, _⟩
  · simp [h1, h2]
  · simp [h1, h2, ht, getAttribute, ha]

theorem highlightDoc_idem (path : String) (doc : List Element) :
    highlightDoc path (highlightDoc path doc) = highlightDoc path doc := by
  apply List.ext_getElem?
  intro j
  rw [getElem?_highlightDoc path (highlightDoc path doc), sidebarSelector_highlightDoc,
    getElem?_highlightDoc]
  by_cases hs : sidebarSelector doc j = true
  · cases h : doc[j]? <;> simp [hs, highlightLink_idem]
  · simp [hs]

/-! ## Claims about the sidebar pass -/

/-- C3: after the highlight pass, a sidebar link whose `href` attribute is
string-equal to the current path reads `fontWeight` `600` and `color`
`var(--primary-color)`, and a sidebar link whose `href` differs from the
current path, or is absent, is exactly as it was before the pass. -/
theorem C3_highlight_pass (p : Page) (i : Nat) (link : Element)
    (hi : p.doc[i]? = some link) (hsel : sidebarSelector p.doc i = true) :
    ∃ q, highlightPass p = .ok q ∧
      (getAttribute link "href" = some p.pathname →
        ∃ styled, q.doc[i]? = some styled ∧
          getProperty styled.style "fontWeight" = some "600" ∧
          getProperty styled.style "color" = some "var(--primary-color)") ∧
      (getAttribute link "href" ≠ some p.pathname → q.doc[i]? = some link) := by
  refine ⟨_, highlightPass_eq p, ?_, ?_⟩
  · intro hhref
    refine ⟨highlightLink p.pathname link, ?_, ?_, ?_⟩
    · show (highlightDoc p.pathname p.doc)[i]? = _
      rw [getElem?_highlightDoc, if_pos hsel, hi]
      rfl
    · simp only [highlightLink, if_pos hhref]
      exact getProperty_of_declares _ _ _
        (declares_setProperty_of_ne _ _ _ _ _ (by decide) (declares_setProperty _ _ _))
    · simp only [highlightLink, if_pos hhref]
      exact getProperty_of_declares _ _ _ (declares_setProperty _ _ _)
  · intro hhref
    show (highlightDoc p.pathname p.doc)[i]? = _
    rw [getElem?_highlightDoc, if_pos hsel, hi]
    simp only [Option.map_some', highlightLink, if_neg hhref]

/-- C3 on the sample page, at the sidebar link to the current path. -/
theorem C3_highlight_pass_witness :
    demoPage.doc[3]? = some
        { tag := "a", parent := some 2, attrs := [("href", "/docs/intro.html")],
          classList := [], style := [] } ∧
      sidebarSelector demoPage.doc 3 = true ∧
      ∃ q, highlightPass demoPage = .ok q ∧
        (getAttribute
            { tag := "a", parent := some 2, attrs := [("href", "/docs/intro.html")],
              classList := [], style := [] } "href" = some demoPage.pathname →
          ∃ styled, q.doc[3]? = some styled ∧
            getProperty styled.style "fontWeight" = some "600" ∧
            getProperty styled.style "color" = some "var(--primary-color)") ∧
        (getAttribute
            { tag := "a", parent := some 2, attrs := [("href", "/docs/intro.html")],
              classList := [], style := [] } "href" ≠ some demoPage.pathname →
          q.doc[3]? = some
            { tag := "a", parent := some 2, attrs := [("href", "/docs/intro.html")],
              classList := [], style := [] }) :=
  ⟨by decide, by decide, C3_highlight_pass demoPage 3 _ (by decide) (by decide)⟩

/-- C9: the highlight pass is idempotent: run on its own result, it returns
that result unchanged, whatever the current path, the links and their inline
styles. -/
theorem C9_highlight_pass_idempotent (p : Page) :
    ∃ q, highlightPass p = .ok q ∧ highlightPass q = .ok q := by
  refine ⟨_, highlightPass_eq p, ?_⟩
  rw [highlightPass_eq]
  simp only [highlightDoc_idem]

/-! ## Lookups -/

theorem find?_range_first (P : Nat → Bool) (n t : Nat)
    (h : (List.range n).find? P = some t) :
    t < n ∧ P t = true ∧ ∀ j, j < t → P j = false := by
  induction n with
  | zero => simp at h
  | succ n ih =>
    rw [List.range_succ, List.find?_append] at h
    cases hn : (List.range n).find? P with
    | some u =>
      rw [hn] at h
      simp only [Option.or_some, Option.some.injEq] at h
      subst h
      obtain ⟨h1, h2, h3⟩ := ih hn
      exact ⟨Nat.lt_succ_of_lt h1, h2, h3⟩
    | none =>
      rw [hn] at h
      simp only [Option.none_or, List.find?_cons, List.find?_nil] at h
      cases hP : P n with
      | false => simp [hP] at h
      | true =>
        simp only [hP, Option.some.injEq] at h
        subst h
        refine ⟨Nat.lt_succ_self _, hP, ?_⟩
        intro j hj
        have := List.find?_eq_none.mp hn j (List.mem_range.mpr hj)
        simpa using this

theorem find?_range_isSome (P : Nat → Bool) (n j : Nat) (hj : j < n) (hP : P j = true) :
    ∃ t, (List.range n).find? P = some t := by
  cases h : (List.range n).find? P with
  | some t => exact ⟨t, rfl⟩
  | none =>
    have := List.find?_eq_none.mp h j (List.mem_range.mpr hj)
    exact absurd hP this

/-! ## Listeners -/

theorem recordOutcome_page (r : ClickState × Option JSError) :
    (recordOutcome r).page = r.1.page := by
  obtain ⟨s, o⟩ := r
  cases o <;> rfl

theorem recordOutcome_defaultPrevented (r : ClickState × Option JSError) :
    (recordOutcome r).defaultPrevented = r.1.defaultPrevented := by
  obtain ⟨s, o⟩ := r
  cases o <;> rfl

theorem recordOutcome_scrolls (r : ClickState × Option JSError) :
    (recordOutcome r).scrolls = r.1.scrolls := by
  obtain ⟨s, o⟩ := r
  cases o <;> rfl

theorem menuToggleHandler_page (s : ClickState) :
    (menuToggleHandler s).1.page = menuTogglePage s.page := by
  unfold menuTogglePage menuToggleHandler
  cases h : s.page.menubar <;> simp [h]

theorem menuToggleHandler_defaultPrevented (s : ClickState) :
    (menuToggleHandler s).1.defaultPrevented = s.defaultPrevented := by
  unfold menuToggleHandler
  cases h : s.page.menubar <;> simp

theorem menuToggleHandler_scrolls (s : ClickState) :
    (menuToggleHandler s).1.scrolls = s.scrolls := by
  unfold menuToggleHandler
  cases h : s.page.menubar <;> simp

theorem anchorHandler_page (E : SelectorEngine) (a : Nat) (s : ClickState) :
    (anchorHandler E a s).1.page = s.page := by
  unfold anchorHandler
  simp only []
  split <;> rfl

theorem anchorHandler_of_parse_none (E : SelectorEngine) (a : Nat) (s : ClickState)
    (e : Element) (h : String) (hdoc : s.page.doc[a]? = some e)
    (hhref : getAttribute e "href" = some h) (hparse : E.parse h = none) :
    anchorHandler E a s = ({ s with defaultPrevented := true }, some .syntaxError) := by
  simp [anchorHandler, hdoc, hhref, querySelector, hparse]

theorem anchorHandler_of_find_none (E : SelectorEngine) (a : Nat) (s : ClickState)
    (e : Element) (h : String) (sel : E.Sel) (hdoc : s.page.doc[a]? = some e)
    (hhref : getAttribute e "href" = some h) (hparse : E.parse h = some sel)
    (hfind : (List.range s.page.doc.length).find? (fun i => E.selects sel s.page.doc i) = none) :
    anchorHandler E a s = ({ s with defaultPrevented := true }, none) := by
  simp only [anchorHandler, hdoc, hhref, querySelector, hparse, Option.getD_some, hfind]

theorem anchorHandler_of_find_some (E : SelectorEngine) (a : Nat) (s : ClickState)
    (e : Element) (h : String) (sel : E.Sel) (t : Nat) (hdoc : s.page.doc[a]? = some e)
    (hhref : getAttribute e "href" = some h) (hparse : E.parse h = some sel)
    (hfind : (List.range s.page.doc.length).find? (fun i => E.selects sel s.page.doc i) = some t) :
    anchorHandler E a s =
      ({ s with defaultPrevented := true, scrolls := s.scrolls ++ [⟨t, "smooth", "start"⟩] },
        none) := by
  simp only [anchorHandler, hdoc, hhref, querySelector, hparse, Option.getD_some, hfind]

theorem filter_beq_of_nodup (l : List Nat) (hn : l.Nodup) (a : Nat) :
    l.filter (fun x => x == a) = if a ∈ l then [a] else [] := by
  induction l with
  | nil => rfl
  | cons x xs ih =>
    obtain ⟨hx, hxs⟩ := List.nodup_cons.mp hn
    by_cases hxa : x = a
    · subst hxa
      simp [List.filter_cons, ih hxs, hx]
    · have hax : ¬ a = x := fun h => hxa h.symm
      simp [List.filter_cons, ih hxs, hxa, hax]

theorem listenersOn_anchorListeners (doc : List Element) (a : Nat) :
    ((anchorListeners doc).filter (fun r => r.1 == a)).map (fun r => r.2) =
      if anchorSelector doc a = true then [Listener.smoothScroll] else [] := by
  unfold anchorListeners
  rw [List.filter_map, List.map_map]
  have h : ((fun r : Nat × Listener => r.1 == a) ∘ fun a => (a, Listener.smoothScroll)) =
      fun x => x == a := rfl
  rw [h, filter_beq_of_nodup _ (nodup_querySelectorAll _ _)]
  by_cases hs : anchorSelector doc a = true
  · have hlt : a < doc.length := by
      by_contra hge
      have hnone : doc[a]? = none := List.getElem?_eq_none (Nat.le_of_not_lt hge)
      simp [anchorSelector, hnone] at hs
    rw [if_pos ((mem_querySelectorAll _ _ _).mpr ⟨hlt, hs⟩), if_pos hs]
    rfl
  · rw [if_neg (fun hm => hs ((mem_querySelectorAll _ _ _).mp hm).2), if_neg hs]
    rfl

/-- The listeners the script leaves on an element of a freshly loaded page:
the menu listener when the element is `toggle`, then the smooth-scroll listener
when it is matched by `a[href^="#"]`. -/
theorem listenersOn_scriptResult (doc : List Element) (path : String)
    (tg mb : Option Nat) (a : Nat) :
    listenersOn (scriptResult (Page.load doc path tg mb)) a =
      (if tg = some a then [Listener.menuToggle] else []) ++
        (if anchorSelector doc a = true then [Listener.smoothScroll] else []) := by
  unfold listenersOn
  simp only [scriptResult, Page.load, List.nil_append, List.filter_append, List.map_append]
  rw [listenersOn_anchorListeners]
  congr 1
  cases tg with
  | none => simp [toggleListeners]
  | some t =>
    by_cases hta : t = a
    · simp [toggleListeners, hta]
    · simp [toggleListeners, hta]

/-! ## Clicks on a page the script has run on -/

theorem menuTogglePage_of_none (p : Page) (h : p.menubar = none) : menuTogglePage p = p := by
  simp [menuTogglePage, menuToggleHandler, h]

theorem menuTogglePage_of_some (p : Page) (m : Nat) (h : p.menubar = some m) :
    menuTogglePage p =
      { p with
        doc := modifyAt (fun e => { e with classList := classListToggle e.classList "active" })
          p.doc m } := by
  simp [menuTogglePage, menuToggleHandler, h]

theorem menuTogglePage_fields (p : Page) :
    (menuTogglePage p).listeners = p.listeners ∧ (menuTogglePage p).menubar = p.menubar ∧
      (menuTogglePage p).toggle = p.toggle ∧
      (menuTogglePage p).doc.length = p.doc.length := by
  cases h : p.menubar with
  | none => rw [menuTogglePage_of_none p h]; exact ⟨rfl, h, rfl, rfl⟩
  | some m =>
    rw [menuTogglePage_of_some p m h]
    exact ⟨rfl, h, rfl, modifyAt_length _ _ _⟩

theorem menuTogglePage_attrs (p : Page) (a : Nat) (e : Element) (h : p.doc[a]? = some e) :
    ∃ e', (menuTogglePage p).doc[a]? = some e' ∧ e'.attrs = e.attrs := by
  cases hm : p.menubar with
  | none => rw [menuTogglePage_of_none p hm]; exact ⟨e, h, rfl⟩
  | some m =>
    rw [menuTogglePage_of_some p m hm]
    simp only [getElem?_modifyAt, h]
    by_cases ham : a = m
    · exact ⟨{ e with classList := classListToggle e.classList "active" }, by simp [ham], rfl⟩
    · exact ⟨e, by simp [ham], rfl⟩

theorem dispatch_append (E : SelectorEngine) (a : Nat) (l1 l2 : List Listener)
    (s : ClickState) : dispatch E a (l1 ++ l2) s = dispatch E a l2 (dispatch E a l1 s) := by
  simp [dispatch, List.foldl_append]

/-- The listeners on an element matched by `a[href^="#"]`, when it is
clicked: the smooth-scroll listener runs once, last, in a state `mid` that the
event has reached without any
`preventDefault` or `scrollIntoView` call, and whose document holds the
element with the attributes it had. -/
theorem atTarget_fragment_link (E : SelectorEngine) (doc : List Element) (path : String)
    (tg mb : Option Nat) (a : Nat) (hsel : anchorSelector doc a = true) :
    ∃ mid : ClickState,
      atTarget E (scriptResult (Page.load doc path tg mb)) a =
          recordOutcome (anchorHandler E a mid) ∧
        mid.defaultPrevented = false ∧ mid.scrolls = [] ∧
        (tg ≠ some a → mid.page = scriptResult (Page.load doc path tg mb)) ∧
        (∀ e, (scriptResult (Page.load doc path tg mb)).doc[a]? = some e →
          ∃ e', mid.page.doc[a]? = some e' ∧ e'.attrs = e.attrs) := by
  unfold atTarget
  rw [listenersOn_scriptResult, if_pos hsel, dispatch_append]
  by_cases hta : tg = some a
  · rw [if_pos hta]
    refine ⟨_, rfl, ?_, ?_, fun h => absurd hta h, ?_⟩
    · simp only [dispatch, List.foldl_cons, List.foldl_nil, runListener,
        recordOutcome_defaultPrevented, menuToggleHandler_defaultPrevented]
    · simp only [dispatch, List.foldl_cons, List.foldl_nil, runListener,
        recordOutcome_scrolls, menuToggleHandler_scrolls]
    · intro e he
      simp only [dispatch, List.foldl_cons, List.foldl_nil, runListener,
        recordOutcome_page, menuToggleHandler_page]
      exact menuTogglePage_attrs _ a e he
  · rw [if_neg hta]
    exact ⟨_, rfl, rfl, rfl, fun _ => rfl, fun e he => ⟨e, he, rfl⟩⟩

/-- The element a fragment link of the script's result is, seen in the loaded
document. -/
theorem anchorSelector_of_link (doc : List Element) (a : Nat) (e : Element) (h : String)
    (hlink : doc[a]? = some e) (htag : e.tag = "a")
    (hhref : getAttribute e "href" = some h) (hhash : beginsWithHash h = true) :
    anchorSelector doc a = true := by
  simp [anchorSelector, hlink, htag, hhref, hhash]

theorem anchorSelector_iff (doc : List Element) (i : Nat) :
    anchorSelector doc i = true ↔
      ∃ link h, doc[i]? = some link ∧ link.tag = "a" ∧
        getAttribute link "href" = some h ∧ beginsWithHash h = true := by
  constructor
  · intro hs
    unfold anchorSelector at hs
    cases hd : doc[i]? with
    | none => simp [hd] at hs
    | some e =>
      cases hh : getAttribute e "href" with
      | none => simp [hd, hh] at hs
      | some h =>
        simp only [hd, hh, Bool.and_eq_true, beq_iff_eq] at hs
        exact ⟨e, h, rfl, hs.1, hh, hs.2⟩
  · rintro ⟨link, h, h1, h2, h3, h4⟩
    exact anchorSelector_of_link doc i link h h1 h2 h3 h4

theorem scriptResult_of_run (doc : List Element) (path : String) (tg mb : Option Nat)
    (p : Page) (hrun : runScript (Page.load doc path tg mb) = .ok p) :
    p = scriptResult (Page.load doc path tg mb) := by
  rw [runScript_eq] at hrun
  exact (Except.ok.inj hrun).symm

/-! ## The menu listener -/

theorem mem_classListToggle_of_ne (cl : List String) (tok c : String) (h : c ≠ tok) :
    c ∈ classListToggle cl tok ↔ c ∈ cl := by
  unfold classListToggle
  split
  · simp [List.mem_filter, h]
  · simp [h]

theorem mem_classListToggle_self (cl : List String) (tok : String) :
    tok ∈ classListToggle cl tok ↔ tok ∉ cl := by
  unfold classListToggle
  by_cases h : tok ∈ cl
  · simp [h, List.mem_filter]
  · simp [h]

theorem classesAt_menuTogglePage (q : Page) (m : Nat) (hm : q.menubar = some m)
    (hlt : m < q.doc.length) :
    classesAt (menuTogglePage q) m = classListToggle (classesAt q m) "active" := by
  rw [menuTogglePage_of_some q m hm]
  unfold classesAt
  simp only [getElem?_modifyAt, if_true]
  rw [List.getElem?_eq_getElem hlt]
  rfl

theorem classesAt_of_length_le (q : Page) (m : Nat) (hle : q.doc.length ≤ m) :
    classesAt q m = [] := by
  unfold classesAt
  rw [List.getElem?_eq_none hle]

theorem iterate_menuTogglePage_fields (q : Page) (n : Nat) :
    (menuTogglePage^[n] q).listeners = q.listeners ∧
      (menuTogglePage^[n] q).menubar = q.menubar ∧
      (menuTogglePage^[n] q).doc.length = q.doc.length := by
  induction n with
  | zero => exact ⟨rfl, rfl, rfl⟩
  | succ n ih =>
    rw [Function.iterate_succ_apply']
    obtain ⟨h1, h2, _, h4⟩ := menuTogglePage_fields (menuTogglePage^[n] q)
    exact ⟨h1.trans ih.1, h2.trans ih.2.1, h4.trans ih.2.2⟩

/-- Classes other than `active` are never touched by the menu listener. -/
theorem mem_classesAt_iterate_of_ne (q : Page) (m n : Nat) (hm : q.menubar = some m)
    (c : String) (hc : c ≠ "active") :
    c ∈ classesAt (menuTogglePage^[n] q) m ↔ c ∈ classesAt q m := by
  induction n with
  | zero => rfl
  | succ n ih =>
    rw [Function.iterate_succ_apply']
    obtain ⟨_, h2, h3⟩ := iterate_menuTogglePage_fields q n
    by_cases hlt : m < q.doc.length
    · rw [classesAt_menuTogglePage _ m (h2.trans hm) (h3 ▸ hlt),
        mem_classListToggle_of_ne _ _ _ hc, ih]
    · have hle : q.doc.length ≤ m := Nat.le_of_not_lt hlt
      rw [classesAt_of_length_le _ m
          ((menuTogglePage_fields (menuTogglePage^[n] q)).2.2.2 ▸ h3 ▸ hle),
        classesAt_of_length_le q m hle]

/-- Each run of the menu listener inverts the presence of `active`. -/
theorem active_mem_classesAt_iterate (q : Page) (m n : Nat) (hm : q.menubar = some m)
    (hlt : m < q.doc.length) :
    (Even n → ("active" ∈ classesAt (menuTogglePage^[n] q) m ↔ "active" ∈ classesAt q m)) ∧
      (Odd n → ("active" ∈ classesAt (menuTogglePage^[n] q) m ↔ "active" ∉ classesAt q m)) := by
  induction n with
  | zero =>
    refine ⟨fun _ => Iff.rfl, fun h => ?_⟩
    simp at h
  | succ n ih =>
    obtain ⟨_, h2, h3⟩ := iterate_menuTogglePage_fields q n
    have hstep : "active" ∈ classesAt (menuTogglePage^[n + 1] q) m ↔
        "active" ∉ classesAt (menuTogglePage^[n] q) m := by
      rw [Function.iterate_succ_apply',
        classesAt_menuTogglePage _ m (h2.trans hm) (h3 ▸ hlt), mem_classListToggle_self]
    constructor
    · intro he
      have hodd : Odd n := by
        rcases Nat.even_or_odd n with h | h
        · exact absurd he (by simpa [Nat.even_add_one] using h)
        · exact h
      rw [hstep, ih.2 hodd, not_not]
    · intro ho
      have heven : Even n := by
        rcases Nat.even_or_odd n with h | h
        · exact h
        · exact absurd ho (by simpa [Nat.odd_add_one] using h)
      rw [hstep, ih.1 heven]

theorem anchorHandler_errors (E : SelectorEngine) (a : Nat) (s : ClickState) :
    (anchorHandler E a s).1.errors = s.errors := by
  unfold anchorHandler
  simp only []
  split <;> rfl

theorem mem_recordOutcome_errors (r : ClickState × Option JSError) (err : JSError)
    (h : err ∈ r.1.errors) : err ∈ (recordOutcome r).errors := by
  obtain ⟨s, o⟩ := r
  cases o with
  | none => exact h
  | some e => exact List.mem_append_left _ h

/-- The listeners on the toggle, when it is clicked: the menu listener runs
once, first, and whatever runs after it leaves the page alone and keeps the
exceptions recorded so far. -/
theorem atTarget_toggle (E : SelectorEngine) (q : Page) (t : Nat) (rest : List Listener)
    (hl : listenersOn q t = Listener.menuToggle :: rest)
    (hrest : ∀ l ∈ rest, l = Listener.smoothScroll) :
    (atTarget E q t).page = menuTogglePage q ∧
      (q.menubar = none → JSError.typeError ∈ (atTarget E q t).errors) := by
  unfold atTarget
  rw [hl]
  have key : ∀ (ls : List Listener) (s : ClickState),
      (∀ l ∈ ls, l = Listener.smoothScroll) →
        (dispatch E t ls s).page = s.page ∧
          ∀ err, err ∈ s.errors → err ∈ (dispatch E t ls s).errors := by
    intro ls
    induction ls with
    | nil => intro s _; exact ⟨rfl, fun _ h => h⟩
    | cons l ls ih =>
      intro s hall
      have hl' : l = Listener.smoothScroll := hall l (List.mem_cons_self _ _)
      subst hl'
      obtain ⟨h1, h2⟩ := ih (recordOutcome (anchorHandler E t s))
        (fun l hl => hall l (List.mem_cons_of_mem _ hl))
      refine ⟨?_, fun err herr => ?_⟩
      · show (dispatch E t ls (recordOutcome (anchorHandler E t s))).page = _
        rw [h1, recordOutcome_page, anchorHandler_page]
      · apply h2
        apply mem_recordOutcome_errors
        rw [anchorHandler_errors]
        exact herr
  obtain ⟨h1, h2⟩ := key rest
    (recordOutcome (menuToggleHandler
      { page := q, defaultPrevented := false, scrolls := [], errors := [] })) hrest
  refine ⟨?_, fun hnone => ?_⟩
  · exact h1.trans (by rw [recordOutcome_page, menuToggleHandler_page])
  · exact h2 _ (by simp [menuToggleHandler, hnone, recordOutcome])

/-- The listeners on the toggle of a page the script has run on. -/
theorem listenersOn_toggle (doc : List Element) (path : String) (t : Nat) (mb : Option Nat) :
    ∃ rest, listenersOn (scriptResult (Page.load doc path (some t) mb)) t =
        Listener.menuToggle :: rest ∧ ∀ l ∈ rest, l = Listener.smoothScroll := by
  rw [listenersOn_scriptResult, if_pos rfl]
  by_cases hs : anchorSelector doc t = true
  · rw [if_pos hs]
    exact ⟨[Listener.smoothScroll], rfl, by simp⟩
  · rw [if_neg hs]
    exact ⟨[], rfl, by simp⟩

/-! ## Propagation -/

theorem parentOf_lt (doc : List Element) (i q : Nat) (h : parentOf doc i = some q) :
    q < i := by
  unfold parentOf at h
  cases hd : doc[i]? with
  | none => simp [hd] at h
  | some e =>
    cases hp : e.parent with
    | none => simp [hd, hp] at h
    | some r =>
      simp only [hd, hp] at h
      by_cases hr : r < i
      · rw [if_pos hr] at h
        exact (Option.some.inj h) ▸ hr
      · rw [if_neg hr] at h
        exact absurd h (by simp)

/-- Every ancestor precedes the element, so no element is its own ancestor. -/
theorem mem_ancestors_lt (doc : List Element) (fuel i b : Nat)
    (h : b ∈ ancestors doc fuel i) : b < i := by
  induction fuel generalizing i with
  | zero => simp [ancestors] at h
  | succ n ih =>
    unfold ancestors at h
    cases hp : parentOf doc i with
    | none => simp [hp] at h
    | some q =>
      simp only [hp, List.mem_cons] at h
      have hq := parentOf_lt doc i q hp
      rcases h with h | h
      · exact h ▸ hq
      · exact Nat.lt_trans (ih q h) hq

theorem menuToggleHandler_errors (s : ClickState) :
    (menuToggleHandler s).1.errors = s.errors := by
  unfold menuToggleHandler
  cases h : s.page.menubar <;> simp

theorem anchorHandler_defaultPrevented (E : SelectorEngine) (a : Nat) (s : ClickState) :
    (anchorHandler E a s).1.defaultPrevented = true := by
  unfold anchorHandler
  simp only []
  split <;> rfl

theorem listenersOn_congr (p q : Page) (b : Nat) (h : q.listeners = p.listeners) :
    listenersOn q b = listenersOn p b := by
  unfold listenersOn
  rw [h]

/-- What every listener keeps: the registrations, the exceptions recorded so
far, and a `preventDefault` call once made. -/
theorem runListener_keeps (E : SelectorEngine) (b : Nat) (l : Listener) (s : ClickState) :
    (recordOutcome (runListener E b l s)).page.listeners = s.page.listeners ∧
      (∀ err, err ∈ s.errors → err ∈ (recordOutcome (runListener E b l s)).errors) ∧
      (s.defaultPrevented = true →
        (recordOutcome (runListener E b l s)).defaultPrevented = true) := by
  cases l with
  | menuToggle =>
    refine ⟨?_, fun err herr => ?_, fun hdp => ?_⟩
    · show (recordOutcome (menuToggleHandler s)).page.listeners = _
      rw [recordOutcome_page, menuToggleHandler_page]
      exact (menuTogglePage_fields s.page).1
    · apply mem_recordOutcome_errors
      show err ∈ (menuToggleHandler s).1.errors
      rw [menuToggleHandler_errors]
      exact herr
    · show (recordOutcome (menuToggleHandler s)).defaultPrevented = true
      rw [recordOutcome_defaultPrevented, menuToggleHandler_defaultPrevented]
      exact hdp
  | smoothScroll =>
    refine ⟨?_, fun err herr => ?_, fun _ => ?_⟩
    · show (recordOutcome (anchorHandler E b s)).page.listeners = _
      rw [recordOutcome_page, anchorHandler_page]
    · apply mem_recordOutcome_errors
      show err ∈ (anchorHandler E b s).1.errors
      rw [anchorHandler_errors]
      exact herr
    · show (recordOutcome (anchorHandler E b s)).defaultPrevented = true
      rw [recordOutcome_defaultPrevented, anchorHandler_defaultPrevented]

theorem dispatch_keeps (E : SelectorEngine) (b : Nat) (ls : List Listener) (s : ClickState) :
    (dispatch E b ls s).page.listeners = s.page.listeners ∧
      (∀ err, err ∈ s.errors → err ∈ (dispatch E b ls s).errors) ∧
      (s.defaultPrevented = true → (dispatch E b ls s).defaultPrevented = true) := by
  induction ls generalizing s with
  | nil => exact ⟨rfl, fun _ h => h, fun h => h⟩
  | cons l ls ih =>
    obtain ⟨h1, h2, h3⟩ := runListener_keeps E b l s
    obtain ⟨k1, k2, k3⟩ := ih (recordOutcome (runListener E b l s))
    exact ⟨k1.trans h1, fun err herr => k2 err (h2 err herr), fun hdp => k3 (h3 hdp)⟩

/-- Menu listeners call neither `preventDefault` nor `scrollIntoView`. -/
theorem dispatch_menuOnly (E : SelectorEngine) (b : Nat) (ls : List Listener)
    (s : ClickState) (h : ∀ l ∈ ls, l = Listener.menuToggle) :
    (dispatch E b ls s).scrolls = s.scrolls ∧
      (dispatch E b ls s).defaultPrevented = s.defaultPrevented := by
  induction ls generalizing s with
  | nil => exact ⟨rfl, rfl⟩
  | cons l ls ih =>
    have hl : l = Listener.menuToggle := h l (List.mem_cons_self _ _)
    subst hl
    obtain ⟨k1, k2⟩ := ih (recordOutcome (menuToggleHandler s))
      (fun l hl => h l (List.mem_cons_of_mem _ hl))
    refine ⟨k1.trans ?_, k2.trans ?_⟩
    · rw [recordOutcome_scrolls, menuToggleHandler_scrolls]
    · rw [recordOutcome_defaultPrevented, menuToggleHandler_defaultPrevented]

/-- Smooth-scroll listeners leave the page as it is. -/
theorem dispatch_scrollOnly (E : SelectorEngine) (b : Nat) (ls : List Listener)
    (s : ClickState) (h : ∀ l ∈ ls, l = Listener.smoothScroll) :
    (dispatch E b ls s).page = s.page := by
  induction ls generalizing s with
  | nil => rfl
  | cons l ls ih =>
    have hl : l = Listener.smoothScroll := h l (List.mem_cons_self _ _)
    subst hl
    refine (ih (recordOutcome (anchorHandler E b s))
      (fun l hl => h l (List.mem_cons_of_mem _ hl))).trans ?_
    rw [recordOutcome_page, anchorHandler_page]

theorem propagate_keeps (E : SelectorEngine) (path : List Nat) (s : ClickState) :
    (path.foldl (reach E) s).page.listeners = s.page.listeners ∧
      (∀ err, err ∈ s.errors → err ∈ (path.foldl (reach E) s).errors) ∧
      (s.defaultPrevented = true → (path.foldl (reach E) s).defaultPrevented = true) := by
  induction path generalizing s with
  | nil => exact ⟨rfl, fun _ h => h, fun h => h⟩
  | cons b rest ih =>
    obtain ⟨h1, h2, h3⟩ := dispatch_keeps E b (listenersOn s.page b) s
    obtain ⟨k1, k2, k3⟩ := ih (reach E s b)
    exact ⟨k1.trans h1, fun err herr => k2 err (h2 err herr), fun hdp => k3 (h3 hdp)⟩

/-- Going up through elements that carry menu listeners only adds no
`preventDefault` and no `scrollIntoView` call. -/
theorem propagate_menuOnly (E : SelectorEngine) (p : Page) (path : List Nat)
    (s : ClickState) (hs : s.page.listeners = p.listeners)
    (h : ∀ b ∈ path, ∀ l ∈ listenersOn p b, l = Listener.menuToggle) :
    (path.foldl (reach E) s).scrolls = s.scrolls ∧
      (path.foldl (reach E) s).defaultPrevented = s.defaultPrevented := by
  induction path generalizing s with
  | nil => exact ⟨rfl, rfl⟩
  | cons b rest ih =>
    have hb : ∀ l ∈ listenersOn s.page b, l = Listener.menuToggle := by
      rw [listenersOn_congr p s.page b hs]
      exact h b (List.mem_cons_self _ _)
    obtain ⟨h1, h2⟩ := dispatch_menuOnly E b (listenersOn s.page b) s hb
    obtain ⟨k1, k2⟩ := ih (reach E s b)
      ((dispatch_keeps E b (listenersOn s.page b) s).1.trans hs)
      (fun c hc => h c (List.mem_cons_of_mem _ hc))
    exact ⟨k1.trans h1, k2.trans h2⟩

/-- Going up through elements that carry smooth-scroll listeners only leaves
the page as it is. -/
theorem propagate_scrollOnly (E : SelectorEngine) (p : Page) (path : List Nat)
    (s : ClickState) (hs : s.page.listeners = p.listeners)
    (h : ∀ b ∈ path, ∀ l ∈ listenersOn p b, l = Listener.smoothScroll) :
    (path.foldl (reach E) s).page = s.page := by
  induction path generalizing s with
  | nil => rfl
  | cons b rest ih =>
    have hb : ∀ l ∈ listenersOn s.page b, l = Listener.smoothScroll := by
      rw [listenersOn_congr p s.page b hs]
      exact h b (List.mem_cons_self _ _)
    have h1 := dispatch_scrollOnly E b (listenersOn s.page b) s hb
    have k1 := ih (reach E s b) ((congrArg Page.listeners h1).trans hs)
      (fun c hc => h c (List.mem_cons_of_mem _ hc))
    exact k1.trans h1

/-- An element that `a[href^="#"]` does not match carries menu listeners only. -/
theorem listenersOn_menuOnly (doc : List Element) (path : String) (tg mb : Option Nat)
    (b : Nat) (h : anchorSelector doc b = false) :
    ∀ l ∈ listenersOn (scriptResult (Page.load doc path tg mb)) b,
      l = Listener.menuToggle := by
  rw [listenersOn_scriptResult, h]
  intro l hl
  by_cases htb : tg = some b
  · simpa [htb] using hl
  · simp [htb] at hl

/-- An element that is not the toggle carries smooth-scroll listeners only. -/
theorem listenersOn_scrollOnly (doc : List Element) (path : String) (tg mb : Option Nat)
    (b : Nat) (h : tg ≠ some b) :
    ∀ l ∈ listenersOn (scriptResult (Page.load doc path tg mb)) b,
      l = Listener.smoothScroll := by
  rw [listenersOn_scriptResult, if_neg h]
  intro l hl
  by_cases hs : anchorSelector doc b = true
  · simpa [hs] using hl
  · simp [hs] at hl

/-- In the page the script leaves, no ancestor of `a` matched by `a[href^="#"]`
means menu listeners only on the way up. -/
theorem ancestors_menuOnly (doc : List Element) (path : String) (tg mb : Option Nat)
    (a : Nat)
    (hanc : ∀ b ∈ ancestors (scriptResult (Page.load doc path tg mb)).doc a a,
      anchorSelector (scriptResult (Page.load doc path tg mb)).doc b = false) :
    ∀ b ∈ ancestors (scriptResult (Page.load doc path tg mb)).doc a a,
      ∀ l ∈ listenersOn (scriptResult (Page.load doc path tg mb)) b,
        l = Listener.menuToggle := by
  intro b hb
  have h := hanc b hb
  rw [show (scriptResult (Page.load doc path tg mb)).doc = highlightDoc path doc from rfl,
    anchorSelector_highlightDoc] at h
  exact listenersOn_menuOnly doc path tg mb b h

/-- After `n` clicks on the toggle the page is the one the menu listener leaves
after `n` runs. -/
theorem clicks_toggle (E : SelectorEngine) (doc : List Element) (path : String) (t : Nat)
    (mb : Option Nat) (n : Nat) :
    clicks E (scriptResult (Page.load doc path (some t) mb)) t n =
      menuTogglePage^[n] (scriptResult (Page.load doc path (some t) mb)) := by
  induction n with
  | zero => rfl
  | succ n ih =>
    rw [Function.iterate_succ_apply']
    show (click E (clicks E _ t n) t).page = _
    rw [ih]
    obtain ⟨rest, hl, hrest⟩ := listenersOn_toggle doc path t mb
    have hls := (iterate_menuTogglePage_fields
      (scriptResult (Page.load doc path (some t) mb)) n).1
    have hl' : listenersOn (menuTogglePage^[n] (scriptResult (Page.load doc path (some t) mb))) t
        = Listener.menuToggle :: rest := by
      rw [listenersOn_congr _ _ t hls]
      exact hl
    have hat := (atTarget_toggle E _ t rest hl' hrest).1
    unfold click
    rw [propagate_scrollOnly E (menuTogglePage^[n] (scriptResult (Page.load doc path (some t) mb)))
      _ _ ?_ ?_, hat]
    · rw [hat]
      exact (menuTogglePage_fields _).1
    · intro b hb
      rw [listenersOn_congr _ _ b hls]
      apply listenersOn_scrollOnly
      intro htb
      have hlt := mem_ancestors_lt _ _ _ _ hb
      rw [Option.some.inj htb] at hlt
      exact Nat.lt_irrefl _ hlt

/-- A click whose way up meets no element matched by `a[href^="#"]` has the
`preventDefault` and `scrollIntoView` calls of the listeners on the clicked
element, and no other. -/
theorem click_of_menuOnly_ancestors (E : SelectorEngine) (doc : List Element)
    (path : String) (tg mb : Option Nat) (a : Nat)
    (hanc : ∀ b ∈ ancestors (scriptResult (Page.load doc path tg mb)).doc a a,
      anchorSelector (scriptResult (Page.load doc path tg mb)).doc b = false) :
    (click E (scriptResult (Page.load doc path tg mb)) a).scrolls =
        (atTarget E (scriptResult (Page.load doc path tg mb)) a).scrolls ∧
      (click E (scriptResult (Page.load doc path tg mb)) a).defaultPrevented =
        (atTarget E (scriptResult (Page.load doc path tg mb)) a).defaultPrevented :=
  propagate_menuOnly E (scriptResult (Page.load doc path tg mb)) _
    (atTarget E (scriptResult (Page.load doc path tg mb)) a)
    (dispatch_keeps E a _ _).1 (ancestors_menuOnly doc path tg mb a hanc)

/-- The way up never takes back an exception or a `preventDefault` call. -/
theorem click_keeps (E : SelectorEngine) (p : Page) (a : Nat) :
    (∀ err, err ∈ (atTarget E p a).errors → err ∈ (click E p a).errors) ∧
      ((atTarget E p a).defaultPrevented = true → (click E p a).defaultPrevented = true) :=
  (propagate_keeps E (ancestors p.doc a a) (atTarget E p a)).2

/-! ## Claims about the smooth-scroll listener -/

/-- C1, as stated, fails in two ways.  A fragment link inside another fragment
link: the click runs both listeners and makes two `scrollIntoView` calls.  A
fragment link that is itself the toggle: the menu listener runs first, and the
element the `href` matched before the click is matched no longer, so that no
call is made. -/
theorem C1_counterexample :
    (runScript nestedPage = .ok (scriptResult nestedPage) ∧
      (scriptResult nestedPage).doc[3]? = some
        { tag := "a", parent := some 2, attrs := [("href", "#top")], classList := [],
          style := [] } ∧
      beginsWithHash "#top" = true ∧
      idEngine.parse "#top" = some "top" ∧
      idEngine.selects "top" (scriptResult nestedPage).doc 1 = true ∧
      (click idEngine (scriptResult nestedPage) 3).scrolls =
        [⟨1, "smooth", "start"⟩, ⟨0, "smooth", "start"⟩]) ∧
    (runScript toggleLinkOpenPage = .ok (scriptResult toggleLinkOpenPage) ∧
      (scriptResult toggleLinkOpenPage).doc[0]? = some
        { tag := "a", parent := none, attrs := [("href", "#menubar.active")], classList := [],
          style := [] } ∧
      beginsWithHash "#menubar.active" = true ∧
      idClassEngine.parse "#menubar.active" = some ("menubar", "active") ∧
      idClassEngine.selects ("menubar", "active") (scriptResult toggleLinkOpenPage).doc 1
        = true ∧
      (click idClassEngine (scriptResult toggleLinkOpenPage) 0).scrolls = []) :=
  ⟨⟨runScript_eq nestedPage, by decide, by decide, rfl, by decide, by decide⟩,
    ⟨runScript_eq toggleLinkOpenPage, by decide, by decide, rfl, by decide, by decide⟩⟩

/-- C1, amended: on a page the script has run on, take a link whose `href`
begins with `#`, that is not itself the toggle and has no ancestor matched by
`a[href^="#"]`.  If its `href` is a selector that matches an element of the
document, a click on the link calls `preventDefault` and makes exactly one
`scrollIntoView` call, with `behavior` `smooth` and `block` `start`, on the
first matching element in document order. -/
theorem C1_click_scrolls_to_first_match (E : SelectorEngine) (doc : List Element)
    (path : String) (tg mb : Option Nat) (p : Page) (a : Nat) (link : Element)
    (h : String) (sel : E.Sel)
    (hrun : runScript (Page.load doc path tg mb) = .ok p)
    (hlink : p.doc[a]? = some link) (htag : link.tag = "a")
    (hhref : getAttribute link "href" = some h) (hhash : beginsWithHash h = true)
    (hnt : tg ≠ some a)
    (hanc : ∀ b ∈ ancestors p.doc a a, anchorSelector p.doc b = false)
    (hparse : E.parse h = some sel)
    (hmatch : ∃ j, j < p.doc.length ∧ E.selects sel p.doc j = true) :
    (click E p a).defaultPrevented = true ∧
      ∃ t, (click E p a).scrolls = [⟨t, "smooth", "start"⟩] ∧
        t < p.doc.length ∧ E.selects sel p.doc t = true ∧
        ∀ j, j < t → E.selects sel p.doc j = false := by
  have hp := scriptResult_of_run doc path tg mb p hrun
  subst hp
  have hsel := anchorSelector_of_link _ a link h hlink htag hhref hhash
  rw [show (scriptResult (Page.load doc path tg mb)).doc = highlightDoc path doc from rfl,
    anchorSelector_highlightDoc] at hsel
  obtain ⟨mid, hat, hdp, hsc, hpage, _⟩ := atTarget_fragment_link E doc path tg mb a hsel
  have hmid := hpage hnt
  obtain ⟨j, hj, hjs⟩ := hmatch
  rw [← hmid] at hj hjs hlink
  obtain ⟨t, ht⟩ := find?_range_isSome (fun i => E.selects sel mid.page.doc i) _ j hj hjs
  obtain ⟨h1, h2, h3⟩ := find?_range_first _ _ _ ht
  rw [anchorHandler_of_find_some E a mid link h sel t hlink hhref hparse ht] at hat
  obtain ⟨k1, k2⟩ := click_of_menuOnly_ancestors E doc path tg mb a hanc
  rw [k1, k2, hat]
  rw [hmid] at h1 h2 h3
  refine ⟨rfl, t, ?_, h1, h2, h3⟩
  show mid.scrolls ++ _ = _
  rw [hsc]
  rfl

/-- C1 amended, on the sample page: the click on the link to `#section-2`
scrolls the heading with that `id`. -/
theorem C1_click_scrolls_to_first_match_witness :
    runScript demoPage = .ok (scriptResult demoPage) ∧
      idEngine.parse "#section-2" = some "section-2" ∧
      (click idEngine (scriptResult demoPage) 5).scrolls = [⟨6, "smooth", "start"⟩] ∧
      ((click idEngine (scriptResult demoPage) 5).defaultPrevented = true ∧
        ∃ t, (click idEngine (scriptResult demoPage) 5).scrolls = [⟨t, "smooth", "start"⟩] ∧
          t < (scriptResult demoPage).doc.length ∧
          idEngine.selects "section-2" (scriptResult demoPage).doc t = true ∧
          ∀ j, j < t → idEngine.selects "section-2" (scriptResult demoPage).doc j = false) :=
  ⟨runScript_eq demoPage, rfl, by decide,
    C1_click_scrolls_to_first_match idEngine demoDoc "/docs/intro.html" (some 0) (some 1)
      (scriptResult demoPage) 5
      { tag := "a", parent := none, attrs := [("href", "#section-2")], classList := [],
        style := [] }
      "#section-2" "section-2" (runScript_eq demoPage) (by decide) (by decide) (by decide)
      (by decide) (by decide) (by decide) rfl ⟨6, by decide, by decide⟩⟩

/-- C2, as stated, fails in two ways.  A dangling fragment link inside a
fragment link whose target exists: the click runs the outer listener too and
makes one `scrollIntoView` call.  A fragment link that is itself the toggle:
the menu listener runs first, and the `href` that matched nothing before the
click matches the menu bar when the lookup is made. -/
theorem C2_counterexample :
    (runScript nestedPage = .ok (scriptResult nestedPage) ∧
      (scriptResult nestedPage).doc[4]? = some
        { tag := "a", parent := some 2, attrs := [("href", "#missing")], classList := [],
          style := [] } ∧
      beginsWithHash "#missing" = true ∧
      idEngine.parse "#missing" = some "missing" ∧
      (∀ j, j < (scriptResult nestedPage).doc.length →
        idEngine.selects "missing" (scriptResult nestedPage).doc j = false) ∧
      (click idEngine (scriptResult nestedPage) 4).scrolls = [⟨0, "smooth", "start"⟩]) ∧
    (runScript toggleLinkClosedPage = .ok (scriptResult toggleLinkClosedPage) ∧
      (scriptResult toggleLinkClosedPage).doc[0]? = some
        { tag := "a", parent := none, attrs := [("href", "#menubar.active")], classList := [],
          style := [] } ∧
      beginsWithHash "#menubar.active" = true ∧
      idClassEngine.parse "#menubar.active" = some ("menubar", "active") ∧
      (∀ j, j < (scriptResult toggleLinkClosedPage).doc.length →
        idClassEngine.selects ("menubar", "active") (scriptResult toggleLinkClosedPage).doc j
          = false) ∧
      (click idClassEngine (scriptResult toggleLinkClosedPage) 0).scrolls =
        [⟨1, "smooth", "start"⟩]) :=
  ⟨⟨runScript_eq nestedPage, by decide, by decide, rfl, by decide, by decide⟩,
    ⟨runScript_eq toggleLinkClosedPage, by decide, by decide, rfl, by decide, by decide⟩⟩

/-- C2, amended: on a page the script has run on, take a link whose `href`
begins with `#`, that is not itself the toggle and has no ancestor matched by
`a[href^="#"]`.  If its `href` matches no element of the document (whether it
is a selector or not), a click on the link still calls `preventDefault` and
makes no `scrollIntoView` call. -/
theorem C2_click_dangling_fragment (E : SelectorEngine) (doc : List Element)
    (path : String) (tg mb : Option Nat) (p : Page) (a : Nat) (link : Element)
    (h : String)
    (hrun : runScript (Page.load doc path tg mb) = .ok p)
    (hlink : p.doc[a]? = some link) (htag : link.tag = "a")
    (hhref : getAttribute link "href" = some h) (hhash : beginsWithHash h = true)
    (hnt : tg ≠ some a)
    (hanc : ∀ b ∈ ancestors p.doc a a, anchorSelector p.doc b = false)
    (hno : ∀ sel, E.parse h = some sel → ∀ j, j < p.doc.length →
      E.selects sel p.doc j = false) :
    (click E p a).defaultPrevented = true ∧ (click E p a).scrolls = [] := by
  have hp := scriptResult_of_run doc path tg mb p hrun
  subst hp
  have hsel := anchorSelector_of_link _ a link h hlink htag hhref hhash
  rw [show (scriptResult (Page.load doc path tg mb)).doc = highlightDoc path doc from rfl,
    anchorSelector_highlightDoc] at hsel
  obtain ⟨mid, hat, hdp, hsc, hpage, _⟩ := atTarget_fragment_link E doc path tg mb a hsel
  have hmid := hpage hnt
  rw [← hmid] at hno hlink
  obtain ⟨k1, k2⟩ := click_of_menuOnly_ancestors E doc path tg mb a hanc
  rw [k1, k2]
  cases hparse : E.parse h with
  | none =>
    rw [anchorHandler_of_parse_none E a mid link h hlink hhref hparse] at hat
    rw [hat]
    exact ⟨rfl, hsc⟩
  | some sel =>
    have hfind : (List.range mid.page.doc.length).find?
        (fun i => E.selects sel mid.page.doc i) = none := by
      apply List.find?_eq_none.mpr
      intro j hj
      simp [hno sel hparse j (List.mem_range.mp hj)]
    rw [anchorHandler_of_find_none E a mid link h sel hlink hhref hparse hfind] at hat
    rw [hat]
    exact ⟨rfl, hsc⟩

/-- C2 amended, on the sample page: the click on the link to `#missing`
scrolls nothing. -/
theorem C2_click_dangling_fragment_witness :
    runScript demoPage = .ok (scriptResult demoPage) ∧
      ((click idEngine (scriptResult demoPage) 8).defaultPrevented = true ∧
        (click idEngine (scriptResult demoPage) 8).scrolls = []) :=
  ⟨runScript_eq demoPage,
    C2_click_dangling_fragment idEngine demoDoc "/docs/intro.html" (some 0) (some 1)
      (scriptResult demoPage) 8
      { tag := "a", parent := none, attrs := [("href", "#missing")], classList := [],
        style := [] }
      "#missing" (runScript_eq demoPage) (by decide) (by decide) (by decide) (by decide)
      (by decide) (by decide)
      (by
        intro sel hsel j hj
        have hs : sel = "missing" := (Option.some.inj hsel).symm
        subst hs
        have hj' : j < 10 := hj
        interval_cases j <;> decide)⟩

/-- C6: on a page the script has run on, a click on a link whose `href` begins
with `#` and is not a selector (as the bare marker `#` is not) makes the
listener throw a `SyntaxError`, after the `preventDefault` call; the listeners
on the link make no `scrollIntoView` call, and when no ancestor of the link is
matched by `a[href^="#"]` the whole click makes none. -/
theorem C6_click_unparsable_fragment_throws (E : SelectorEngine) (doc : List Element)
    (path : String) (tg mb : Option Nat) (p : Page) (a : Nat) (link : Element)
    (h : String)
    (hrun : runScript (Page.load doc path tg mb) = .ok p)
    (hlink : p.doc[a]? = some link) (htag : link.tag = "a")
    (hhref : getAttribute link "href" = some h) (hhash : beginsWithHash h = true)
    (hparse : E.parse h = none) :
    JSError.syntaxError ∈ (click E p a).errors ∧
      (click E p a).defaultPrevented = true ∧
      (atTarget E p a).scrolls = [] ∧
      ((∀ b ∈ ancestors p.doc a a, anchorSelector p.doc b = false) →
        (click E p a).scrolls = []) := by
  have hp := scriptResult_of_run doc path tg mb p hrun
  subst hp
  have hsel := anchorSelector_of_link _ a link h hlink htag hhref hhash
  rw [show (scriptResult (Page.load doc path tg mb)).doc = highlightDoc path doc from rfl,
    anchorSelector_highlightDoc] at hsel
  obtain ⟨mid, hat, hdp, hsc, hpage, hattrs⟩ := atTarget_fragment_link E doc path tg mb a hsel
  obtain ⟨e', he', hea⟩ := hattrs link hlink
  have hhref' : getAttribute e' "href" = some h := by
    unfold getAttribute
    rw [hea]
    exact hhref
  rw [anchorHandler_of_parse_none E a mid e' h he' hhref' hparse] at hat
  obtain ⟨m1, m2⟩ := click_keeps E (scriptResult (Page.load doc path tg mb)) a
  rw [hat] at m1 m2
  refine ⟨m1 _ ?_, m2 rfl, ?_, fun hanc => ?_⟩
  · show JSError.syntaxError ∈ mid.errors ++ [JSError.syntaxError]
    simp
  · rw [hat]
    exact hsc
  · rw [(click_of_menuOnly_ancestors E doc path tg mb a hanc).1, hat]
    exact hsc

/-- C6 on the sample page: the click on the bare `#` link throws. -/
theorem C6_click_unparsable_fragment_throws_witness :
    runScript demoPage = .ok (scriptResult demoPage) ∧
      idEngine.parse "#" = none ∧
      (click idEngine (scriptResult demoPage) 7).errors = [JSError.syntaxError] ∧
      (click idEngine (scriptResult demoPage) 7).scrolls = [] ∧
      (JSError.syntaxError ∈ (click idEngine (scriptResult demoPage) 7).errors ∧
        (click idEngine (scriptResult demoPage) 7).defaultPrevented = true ∧
        (atTarget idEngine (scriptResult demoPage) 7).scrolls = [] ∧
        ((∀ b ∈ ancestors (scriptResult demoPage).doc 7 7,
            anchorSelector (scriptResult demoPage).doc b = false) →
          (click idEngine (scriptResult demoPage) 7).scrolls = [])) :=
  ⟨runScript_eq demoPage, rfl, by decide, by decide,
    C6_click_unparsable_fragment_throws idEngine demoDoc "/docs/intro.html" (some 0) (some 1)
      (scriptResult demoPage) 7
      { tag := "a", parent := none, attrs := [("href", "#")], classList := [], style := [] }
      "#" (runScript_eq demoPage) (by decide) (by decide) (by decide) (by decide) rfl⟩

/-- C10, as stated, fails: a link to another page inside a fragment link
carries no listener of its own, and yet a click on it runs the listener of the
fragment link around it, which calls `preventDefault` and `scrollIntoView`. -/
theorem C10_counterexample :
    runScript nestedPage = .ok (scriptResult nestedPage) ∧
      (scriptResult nestedPage).doc[5]? = some
        { tag := "a", parent := some 2, attrs := [("href", "/other.html")], classList := [],
          style := [] } ∧
      beginsWithHash "/other.html" = false ∧
      (5, Listener.smoothScroll) ∉ (scriptResult nestedPage).listeners ∧
      (click idEngine (scriptResult nestedPage) 5).defaultPrevented = true ∧
      (click idEngine (scriptResult nestedPage) 5).scrolls = [⟨0, "smooth", "start"⟩] :=
  ⟨runScript_eq nestedPage, by decide, by decide, by decide, by decide, by decide⟩

/-- C10, amended: on a page the script has run on, an element carries a
smooth-scroll listener if and only if it is an `a` element with an `href`
attribute that begins with `#`; a click on any other element, a link with
another `href` or with none included, calls `preventDefault` never and
`scrollIntoView` never when no ancestor of the element is matched by
`a[href^="#"]`. -/
theorem C10_listener_iff_fragment_link (E : SelectorEngine) (doc : List Element)
    (path : String) (tg mb : Option Nat) (p : Page) (i : Nat)
    (hrun : runScript (Page.load doc path tg mb) = .ok p) :
    ((i, Listener.smoothScroll) ∈ p.listeners ↔
        ∃ link h, p.doc[i]? = some link ∧ link.tag = "a" ∧
          getAttribute link "href" = some h ∧ beginsWithHash h = true) ∧
      ((¬ ∃ link h, p.doc[i]? = some link ∧ link.tag = "a" ∧
          getAttribute link "href" = some h ∧ beginsWithHash h = true) →
        (∀ b ∈ ancestors p.doc i i, anchorSelector p.doc b = false) →
        (click E p i).defaultPrevented = false ∧ (click E p i).scrolls = []) := by
  have hp := scriptResult_of_run doc path tg mb p hrun
  subst hp
  have hiff : anchorSelector doc i = true ↔
      ∃ link h, (scriptResult (Page.load doc path tg mb)).doc[i]? = some link ∧
        link.tag = "a" ∧ getAttribute link "href" = some h ∧ beginsWithHash h = true := by
    rw [← anchorSelector_iff]
    show _ ↔ anchorSelector (highlightDoc path doc) i = true
    rw [anchorSelector_highlightDoc]
  have hlt : anchorSelector doc i = true → i < doc.length := by
    intro hs
    by_contra hge
    have hnone : doc[i]? = none := List.getElem?_eq_none (Nat.le_of_not_lt hge)
    simp [anchorSelector, hnone] at hs
  constructor
  · rw [← hiff]
    show (i, Listener.smoothScroll) ∈ ([] ++ toggleListeners tg) ++ anchorListeners doc ↔ _
    rw [List.nil_append, List.mem_append]
    constructor
    · rintro (hm | hm)
      · cases tg <;> simp [toggleListeners] at hm
      · unfold anchorListeners at hm
        obtain ⟨x, hx, hxe⟩ := List.mem_map.mp hm
        have hxi : x = i := congrArg Prod.fst hxe
        subst hxi
        exact ((mem_querySelectorAll _ _ _).mp hx).2
    · intro hs
      right
      exact List.mem_map.mpr ⟨i, (mem_querySelectorAll _ _ _).mpr ⟨hlt hs, hs⟩, rfl⟩
  · intro hnot hanc
    have hs : anchorSelector doc i = false := by
      cases hb : anchorSelector doc i with
      | false => rfl
      | true => exact absurd (hiff.mp hb) hnot
    obtain ⟨k1, k2⟩ := click_of_menuOnly_ancestors E doc path tg mb i hanc
    obtain ⟨d1, d2⟩ := dispatch_menuOnly E i
      (listenersOn (scriptResult (Page.load doc path tg mb)) i)
      { page := scriptResult (Page.load doc path tg mb), defaultPrevented := false,
        scrolls := [], errors := [] }
      (listenersOn_menuOnly doc path tg mb i hs)
    rw [k1, k2]
    exact ⟨d2, d1⟩

/-- C10 amended, on the sample page, at the external link. -/
theorem C10_listener_iff_fragment_link_witness :
    runScript demoPage = .ok (scriptResult demoPage) ∧
      (9, Listener.smoothScroll) ∉ (scriptResult demoPage).listeners ∧
      (5, Listener.smoothScroll) ∈ (scriptResult demoPage).listeners ∧
      (click idEngine (scriptResult demoPage) 9).defaultPrevented = false ∧
      (((9, Listener.smoothScroll) ∈ (scriptResult demoPage).listeners ↔
          ∃ link h, (scriptResult demoPage).doc[9]? = some link ∧ link.tag = "a" ∧
            getAttribute link "href" = some h ∧ beginsWithHash h = true) ∧
        ((¬ ∃ link h, (scriptResult demoPage).doc[9]? = some link ∧ link.tag = "a" ∧
            getAttribute link "href" = some h ∧ beginsWithHash h = true) →
          (∀ b ∈ ancestors (scriptResult demoPage).doc 9 9,
            anchorSelector (scriptResult demoPage).doc b = false) →
          (click idEngine (scriptResult demoPage) 9).defaultPrevented = false ∧
            (click idEngine (scriptResult demoPage) 9).scrolls = [])) :=
  ⟨runScript_eq demoPage, by decide, by decide, by decide,
    C10_listener_iff_fragment_link idEngine demoDoc "/docs/intro.html" (some 0) (some 1)
      (scriptResult demoPage) 9 (runScript_eq demoPage)⟩

/-! ## Claims about the menu toggle -/

/-- C4: on a page the script has run on, with a toggle and a menu bar, an even
number of clicks on the toggle leaves the menu bar with the same set of
classes as before the clicks, whatever that set was. -/
theorem C4_even_clicks_restore_classes (E : SelectorEngine) (doc : List Element)
    (path : String) (t m : Nat) (p : Page) (n : Nat)
    (hrun : runScript (Page.load doc path (some t) (some m)) = .ok p) (hn : Even n) :
    ∀ c, c ∈ classesAt (clicks E p t n) m ↔ c ∈ classesAt p m := by
  have hp := scriptResult_of_run doc path (some t) (some m) p hrun
  subst hp
  intro c
  rw [clicks_toggle]
  by_cases hc : c = "active"
  · subst hc
    by_cases hlt : m < (scriptResult (Page.load doc path (some t) (some m))).doc.length
    · exact (active_mem_classesAt_iterate _ m n rfl hlt).1 hn
    · have hle := Nat.le_of_not_lt hlt
      rw [classesAt_of_length_le _ m
          (by rw [(iterate_menuTogglePage_fields _ n).2.2]; exact hle),
        classesAt_of_length_le _ m hle]
  · exact mem_classesAt_iterate_of_ne _ m n rfl c hc

/-- C4 on the sample page: two clicks on the toggle. -/
theorem C4_even_clicks_restore_classes_witness :
    runScript demoPage = .ok (scriptResult demoPage) ∧ Even 2 ∧
      classesAt (clicks idEngine (scriptResult demoPage) 0 1) 1 = ["menubar", "active"] ∧
      classesAt (clicks idEngine (scriptResult demoPage) 0 2) 1 = ["menubar"] ∧
      ∀ c, c ∈ classesAt (clicks idEngine (scriptResult demoPage) 0 2) 1 ↔
        c ∈ classesAt (scriptResult demoPage) 1 :=
  ⟨runScript_eq demoPage, by decide, by decide, by decide,
    C4_even_clicks_restore_classes idEngine demoDoc "/docs/intro.html" 0 1
      (scriptResult demoPage) 2 (runScript_eq demoPage) (by decide)⟩

/-- C5, as stated, fails: on a page whose menu bar starts with the `active`
class, one click on the toggle (an odd number) leaves the menu bar without
it. -/
theorem C5_counterexample :
    runScript openMenuPage = .ok (scriptResult openMenuPage) ∧ Odd 1 ∧
      "active" ∈ classesAt (scriptResult openMenuPage) 1 ∧
      "active" ∉ classesAt (clicks idEngine (scriptResult openMenuPage) 0 1) 1 :=
  ⟨runScript_eq openMenuPage, by decide, by decide, by decide⟩

/-- C5, amended: on a page the script has run on, with a toggle and a menu bar
in the document, after an odd number of clicks on the toggle the `active`
class is on the menu bar exactly when it was not before the clicks. -/
theorem C5_odd_clicks_invert_active (E : SelectorEngine) (doc : List Element)
    (path : String) (t m : Nat) (p : Page) (n : Nat)
    (hrun : runScript (Page.load doc path (some t) (some m)) = .ok p)
    (hm : m < doc.length) (hn : Odd n) :
    "active" ∈ classesAt (clicks E p t n) m ↔ "active" ∉ classesAt p m := by
  have hp := scriptResult_of_run doc path (some t) (some m) p hrun
  subst hp
  rw [clicks_toggle]
  have hlt : m < (scriptResult (Page.load doc path (some t) (some m))).doc.length := by
    show m < (highlightDoc path doc).length
    rw [length_highlightDoc]
    exact hm
  exact (active_mem_classesAt_iterate _ m n rfl hlt).2 hn

/-- C5 amended, on the sample page: three clicks from a closed menu. -/
theorem C5_odd_clicks_invert_active_witness :
    runScript demoPage = .ok (scriptResult demoPage) ∧ Odd 3 ∧
      "active" ∉ classesAt (scriptResult demoPage) 1 ∧
      ("active" ∈ classesAt (clicks idEngine (scriptResult demoPage) 0 3) 1 ↔
        "active" ∉ classesAt (scriptResult demoPage) 1) :=
  ⟨runScript_eq demoPage, by decide, by decide,
    C5_odd_clicks_invert_active idEngine demoDoc "/docs/intro.html" 0 1
      (scriptResult demoPage) 3 (runScript_eq demoPage) (by decide) (by decide)⟩

/-- C7: on a page the script has run on, with a toggle and with `menubar`
`null`, a click on the toggle makes the menu listener throw a `TypeError`. -/
theorem C7_toggle_click_without_menubar_throws (E : SelectorEngine) (doc : List Element)
    (path : String) (t : Nat) (p : Page)
    (hrun : runScript (Page.load doc path (some t) none) = .ok p) :
    JSError.typeError ∈ (click E p t).errors := by
  have hp := scriptResult_of_run doc path (some t) none p hrun
  subst hp
  obtain ⟨rest, hl, hrest⟩ := listenersOn_toggle doc path t none
  exact (click_keeps E _ t).1 _ ((atTarget_toggle E _ t rest hl hrest).2 rfl)

/-- C7 on the sample document without a menu bar. -/
theorem C7_toggle_click_without_menubar_throws_witness :
    runScript noMenubarPage = .ok (scriptResult noMenubarPage) ∧
      (click idEngine (scriptResult noMenubarPage) 0).errors = [JSError.typeError] ∧
      JSError.typeError ∈ (click idEngine (scriptResult noMenubarPage) 0).errors :=
  ⟨runScript_eq noMenubarPage, by decide,
    C7_toggle_click_without_menubar_throws idEngine demoDoc "/docs/intro.html" 0
      (scriptResult noMenubarPage) (runScript_eq noMenubarPage)⟩

/-- C8: with `toggle` `null` the script runs to its end without throwing; the
page it leaves has no menu listener on any element, every element has the
classes it had, the page is the one the registration of the smooth-scroll
listeners followed by the sidebar pass produces, and no click changes it. -/
theorem C8_script_without_toggle (doc : List Element) (path : String) (mb : Option Nat) :
    ∃ p, runScript (Page.load doc path none mb) = .ok p ∧
      (∀ t, (t, Listener.menuToggle) ∉ p.listeners) ∧
      (∀ i, classesAt p i = classesAt (Page.load doc path none mb) i) ∧
      (∃ p1, registerAnchors (Page.load doc path none mb) = .ok p1 ∧
        highlightPass p1 = .ok p) ∧
      (∀ i, (i, Listener.smoothScroll) ∈ p.listeners ↔ anchorSelector doc i = true) ∧
      ∀ (E : SelectorEngine) (i : Nat), (click E p i).page = p := by
  refine ⟨_, runScript_eq _, ?_, ?_, ?_, ?_, ?_⟩
  · intro t hmem
    have hmem' : (t, Listener.menuToggle) ∈ ([] ++ toggleListeners none) ++ anchorListeners doc :=
      hmem
    simp [toggleListeners, anchorListeners] at hmem'
  · intro i
    have hd1 : (scriptResult (Page.load doc path none mb)).doc = highlightDoc path doc := rfl
    have hd2 : (Page.load doc path none mb).doc = doc := rfl
    unfold classesAt
    rw [hd1, hd2]
    rcases getElem?_highlightDoc_cases path doc i with ⟨h1, h2⟩ | ⟨e, e', h1, h2, _, _, _, hc⟩
    · simp only [h1, h2]
    · simp only [h1, h2, hc]
  · refine ⟨_, registerAnchors_eq _, ?_⟩
    rw [highlightPass_eq]
    rfl
  · intro i
    show (i, Listener.smoothScroll) ∈ ([] ++ toggleListeners none) ++ anchorListeners doc ↔ _
    simp only [toggleListeners, List.append_nil, List.nil_append, anchorListeners,
      List.mem_map, Prod.mk.injEq, and_true, exists_eq_right, mem_querySelectorAll]
    constructor
    · exact fun h => h.2
    · intro hs
      refine ⟨?_, hs⟩
      by_contra hge
      have hnone : doc[i]? = none := List.getElem?_eq_none (Nat.le_of_not_lt hge)
      simp [anchorSelector, hnone] at hs
  · intro E i
    have hat : (atTarget E (scriptResult (Page.load doc path none mb)) i).page =
        scriptResult (Page.load doc path none mb) :=
      dispatch_scrollOnly E i _ _ (listenersOn_scrollOnly doc path none mb i (by simp))
    unfold click
    rw [propagate_scrollOnly E (scriptResult (Page.load doc path none mb)) _ _
      (congrArg Page.listeners hat)
      (fun b _ => listenersOn_scrollOnly doc path none mb b (by simp)), hat]

end MMDR
